import Mathlib

/-!
Shallow embedding of the QA-generation pipeline in `src/async_qa_generator.py`
(repository Missonix/QAgenerate_Agent).

The external text-generation service (`model.invoke`) is abstracted by an
oracle: each attempted call consumes one `InvokeResult`, which is either the
returned content string or a raised exception.  Randomness (`random.choice`)
is modelled by oracle-supplied indices taken modulo the length of the list
being chosen from; `uuid.uuid4().hex[:8]` by an oracle-supplied string supply.
Prompt construction (`format_product_info`, the constraint list, the prompt
templates) only determines the text sent to the external service, which the
oracle already abstracts, so prompts are not reproduced here; every observable
of the claims (validation, registry updates, fallback texts, the accumulator,
the serialized checkpoint content, warnings, error propagation) is modelled.
-/

namespace QAGen

/-- One result of an attempted `model.invoke` call: either the response
content, or a raised exception (network/service failure). -/
inductive InvokeResult where
  | ok (content : String)
  | exn
deriving Repr, DecidableEq

/-- A product is an open attribute bag, modelled as an ordered association
list of string-valued fields (insertion-ordered, like a Python dict). -/
structure Product where
  attrs : List (String × String)
deriving Repr, DecidableEq

/-- Python `product.get(k)` / `k in product`: key-presence based lookup. -/
def Product.get (p : Product) (k : String) : Option String :=
  (p.attrs.find? (fun kv => kv.1 = k)).map (fun kv => kv.2)

/-- Python `product[k] = v`: replace the value in place if the key exists,
else append the new key (dict insertion order). -/
def Product.set (p : Product) (k v : String) : Product :=
  ⟨setAttr p.attrs⟩
where
  setAttr : List (String × String) → List (String × String)
    | [] => [(k, v)]
    | kv :: rest => if kv.1 = k then (k, v) :: rest else kv :: setAttr rest

/-- Python truthiness of `product.get(k)`: `None` and the empty string are
falsy. -/
def Product.truthyGet (p : Product) (k : String) : Option String :=
  match p.get k with
  | none => none
  | some v => if v = "" then none else some v

/-- One generated exchange, as built in `generate_single_qa_pair`:
`{"id": product_id, "question": question, "answer": answer}`. -/
structure Exchange where
  id : String
  question : String
  answer : String
deriving Repr, DecidableEq

/-- The run-scoped uniqueness registry: the two module-level `SafeSet`s
`used_focuses` and `used_questions`.  Lists are kept duplicate-free and used
with set semantics (`set.add` / `in` / `clear`). -/
structure GenState where
  usedFocuses : List String
  usedQuestions : List String
deriving Repr, DecidableEq

/-- Registry state at run start, after `used_focuses.clear()` and
`used_questions.clear()` in `main_async`. -/
def GenState.init : GenState := ⟨[], []⟩

/-- Python `set.add`: idempotent insertion. -/
def setAdd (x : String) (s : List String) : List String :=
  if x ∈ s then s else x :: s

/-- The 15 focus points of `FOCUS_POINTS` (verbatim program data). -/
def FOCUS_POINTS : List String :=
  [ "价格和优惠：关注商品的价格、折扣、优惠活动、性价比等"
  , "功能特性：关注商品的主要功能、特色功能、创新点等"
  , "规格参数：关注商品的技术参数、尺寸、重量、容量等具体数据"
  , "使用场景：关注商品适合在什么环境或情况下使用"
  , "适用人群：关注商品适合哪类人群使用，如年龄段、职业、兴趣爱好等"
  , "与竞品比较：关注商品与其他同类产品的区别、优势"
  , "售后服务：关注保修、退换货政策、售后支持等"
  , "使用寿命：关注商品的耐用度、电池续航、使用年限等"
  , "外观设计：关注商品的颜色、材质、外观设计、时尚度等"
  , "使用体验：关注商品的易用性、舒适度、用户评价等"
  , "安装调试：关注商品的安装难度、调试方法、兼容性等"
  , "配件耗材：关注商品的配件、耗材价格、更换频率等"
  , "物流发货：关注发货时间、物流方式、是否包邮等"
  , "商品真伪：关注正品保障、防伪验证等"
  , "商品库存：关注是否有货、什么时候能发货等" ]

/-- Focus selection at the top of `generate_question`: snapshot the used-focus
set, filter the available focuses, on exhaustion clear the set and serve from
the full list, randomly choose one (oracle index modulo length), and record
it as used. -/
def pickFocus (choice : Nat) (st : GenState) : String × GenState :=
  let available := FOCUS_POINTS.filter (fun f => ¬ f ∈ st.usedFocuses)
  if available.isEmpty then
    let focus := FOCUS_POINTS.getD (choice % FOCUS_POINTS.length) ""
    (focus, { st with usedFocuses := setAdd focus [] })
  else
    let focus := available.getD (choice % available.length) ""
    (focus, { st with usedFocuses := setAdd focus st.usedFocuses })

/-- Python `str.strip()`: drop leading and trailing whitespace (structural
implementation so that it evaluates inside the kernel). -/
def pyStrip (s : String) : String :=
  ⟨((s.data.dropWhile Char.isWhitespace).reverse.dropWhile Char.isWhitespace).reverse⟩

/-- The validity check on a generated question (line 223 of the source):
`question and len(question) > 2 and not await used_questions.contains(question)`. -/
def validNewQuestion (st : GenState) (q : String) : Bool :=
  (q != "") && decide (2 < q.length) && (!(st.usedQuestions.contains q))

/-- The `for attempt in range(3)` retry loop of `generate_question`, applied to
the per-attempt oracle results.  An exception moves to the next attempt (after
a sleep); a returned content is stripped and checked; a valid novel question is
recorded in the registry and returned; an invalid one moves to the next attempt.
Returns `none` if every attempt failed or was invalid. -/
def questionAttempts : List InvokeResult → GenState → Option String × GenState
  | [], st => (none, st)
  | .exn :: rest, st => questionAttempts rest st
  | .ok content :: rest, st =>
      let question := pyStrip content
      if validNewQuestion st question then
        (some question, { st with usedQuestions := setAdd question st.usedQuestions })
      else
        questionAttempts rest st

/-- Python `focus.split("：")[0]`: the prefix of the string before the first
full-width colon (the whole string when no colon occurs). -/
def focusKeywords (focus : String) : String :=
  ⟨focus.data.takeWhile (fun c => ¬ c = '：')⟩

/-- The deterministic fallback question (lines 234-235):
the f-string built as `"这款" + product_name + "的" + focus_keywords + "怎么样？"`
with `focus_keywords = focus.split("：")[0]`. -/
def defaultQuestion (product_name focus : String) : String :=
  "这款" ++ product_name ++ "的" ++ focusKeywords focus ++ "怎么样？"

/-- `generate_question`: pick a focus, try up to 3 attempts, and on exhaustion
return the deterministic default question, recording it in the registry before
returning.  The Bool marks which return statement fired: `true` means the
fallback path (line 238), `false` the successful path (line 225). -/
def generate_question (product_name : String) (focusChoice : Nat)
    (resps : List InvokeResult) (st : GenState) : (String × Bool) × GenState :=
  match questionAttempts (resps.take 3) (pickFocus focusChoice st).2 with
  | (some q, st2) => ((q, false), st2)
  | (none, st2) =>
      ((defaultQuestion product_name (pickFocus focusChoice st).1, true),
       { st2 with
          usedQuestions :=
            setAdd (defaultQuestion product_name (pickFocus focusChoice st).1)
              st2.usedQuestions })

/-- The deterministic fallback answer (line 284). -/
def fallbackAnswer : String :=
  "亲，这个问题的答案可以在商品描述中找到呢😊 如果您有其他疑问，可以随时问我哦～"

/-- The `for attempt in range(3)` loop of `generate_answer`: the first attempt
that does not raise returns its stripped content unconditionally (no validity
check); `none` if every attempt raised. -/
def answerAttempts : List InvokeResult → Option String
  | [] => none
  | .exn :: rest => answerAttempts rest
  | .ok content :: _ => some (pyStrip content)

/-- `generate_answer`: up to 3 attempts, then the fixed fallback answer. -/
def generate_answer (resps : List InvokeResult) : String :=
  (answerAttempts (resps.take 3)).getD fallbackAnswer

/-- Oracle data consumed by one `generate_single_qa_pair` task: the random
focus index and the per-attempt service results of the question call and of
the answer call. -/
structure QAOracle where
  focusChoice : Nat
  qResps : List InvokeResult
  aResps : List InvokeResult

/-- `generate_single_qa_pair`: generate the question, then the answer, and
assemble the Exchange record with the given product id. -/
def generate_single_qa_pair (product_id product_name : String) (o : QAOracle)
    (st : GenState) : Exchange × GenState :=
  let qr := generate_question product_name o.focusChoice o.qResps st
  let answer := generate_answer o.aResps
  (⟨product_id, qr.1.1, answer⟩, qr.2)

/-- The task fan-out of `generate_qa_pair`: `num_pairs` tasks, whose results
`asyncio.gather` returns in task order; the registry state is threaded through
the cooperative interleaving in that order. -/
def pairsLoop (product_id product_name : String) (oracles : Nat → QAOracle) :
    Nat → Nat → GenState → List Exchange × GenState
  | 0, _, st => ([], st)
  | n + 1, i, st =>
      let r := generate_single_qa_pair product_id product_name (oracles i) st
      let rest := pairsLoop product_id product_name oracles n (i + 1) r.2
      (r.1 :: rest.1, rest.2)

/-- `generate_qa_pair`: formats the product (prompt text, abstracted by the
oracle), reads `product.get('name', '')`, and gathers `num_pairs` parallel
single-pair tasks. -/
def generate_qa_pair (product_id : String) (product : Product) (num_pairs : Nat)
    (oracles : Nat → QAOracle) (st : GenState) : List Exchange × GenState :=
  let product_name := (product.get "name").getD ""
  pairsLoop product_id product_name oracles num_pairs 0 st

/-- One hexadecimal digit, for JSON control-character escapes. -/
def hexDigit (n : Nat) : Char :=
  if n < 10 then Char.ofNat (48 + n) else Char.ofNat (87 + n)

/-- JSON string escaping as `json.dumps` with `ensure_ascii=False` performs it:
quote, backslash and control characters are escaped, all other characters are
emitted verbatim. -/
def jsonEscapeChar (c : Char) : String :=
  if c = '"' then "\\\""
  else if c = '\\' then "\\\\"
  else if c = '\n' then "\\n"
  else if c = '\t' then "\\t"
  else if c = '\r' then "\\r"
  else if c = Char.ofNat 8 then "\\b"
  else if c = Char.ofNat 12 then "\\f"
  else if c.toNat < 32 then
    "\\u00" ++ String.singleton (hexDigit (c.toNat / 16))
            ++ String.singleton (hexDigit (c.toNat % 16))
  else String.singleton c

/-- Escape a whole string for JSON output. -/
def jsonEscape (s : String) : String :=
  String.join (s.data.map jsonEscapeChar)

/-- A JSON string literal. -/
def jsonStr (s : String) : String :=
  "\"" ++ jsonEscape s ++ "\""

/-- One exchange record as `json.dumps(..., ensure_ascii=False, indent=2)`
prints it inside the top-level list (keys in dict insertion order:
id, question, answer). -/
def serializeExchange (e : Exchange) : String :=
  "\x7b\n    \"id\": " ++ jsonStr e.id ++
  ",\n    \"question\": " ++ jsonStr e.question ++
  ",\n    \"answer\": " ++ jsonStr e.answer ++ "\n  \x7d"

/-- The full checkpoint content:
`json.dumps(qa_pairs, ensure_ascii=False, indent=2)`. -/
def serializeQAPairs : List Exchange → String
  | [] => "[]"
  | e :: es =>
      "[\n  " ++ String.intercalate ",\n  " ((e :: es).map serializeExchange) ++ "\n]"

/-- `save_qa_pairs`: open the output file in mode 'w' (full overwrite) and
write the serialization of the entire accumulator.  The Bool oracle says
whether the write succeeds; on failure the exception propagates
(`save_qa_pairs` has no handler). -/
def save_qa_pairs (qa_pairs : List Exchange) (writeOk : Bool) :
    Except Unit String :=
  if writeOk then .ok (serializeQAPairs qa_pairs) else .error ()

/-- `process_product`: compute `qa_product_id = product.get('id', product_id)`,
generate the item's pairs, extend the accumulator with them, and save the
whole accumulator.  Any save failure propagates (no handler in
`process_product` either). -/
def process_product (product_id : String) (product : Product) (num_pairs : Nat)
    (total_qa_pairs : List Exchange) (oracles : Nat → QAOracle) (writeOk : Bool)
    (st : GenState) : Except Unit (List Exchange × String × GenState) :=
  let qa_product_id := (product.get "id").getD product_id
  let r := generate_qa_pair qa_product_id product num_pairs oracles st
  let acc := total_qa_pairs ++ r.1
  match save_qa_pairs acc writeOk with
  | .ok content => .ok (acc, content, r.2)
  | .error e => .error e

/-- Normalization of one raw catalog product in `load_products` (lines 41-59):
pick the dict key (truthy `商品ID`, else truthy `id`, else a generated
`gen_`-prefixed id that is also stored into the product), then mirror each of
the two id fields into the other when the key is absent. -/
def normalizeProduct (uuidHex : String) (p : Product) : String × Product :=
  let keyed : String × Product :=
    match p.truthyGet "商品ID" with
    | some pid => (pid, p)
    | none =>
        match p.truthyGet "id" with
        | some pid => (pid, p)
        | none =>
            let pid := "gen_" ++ uuidHex
            (pid, p.set "id" pid)
  let p1 := keyed.2
  let p2 :=
    if (p1.get "id").isNone ∧ (p1.get "商品ID").isSome then
      p1.set "id" ((p1.get "商品ID").getD "")
    else p1
  let p3 :=
    if (p2.get "商品ID").isNone ∧ (p2.get "id").isSome then
      p2.set "商品ID" ((p2.get "id").getD "")
    else p2
  (keyed.1, p3)

/-- Python dict assignment on the products dict: replace in place when the key
exists, else append (insertion order preserved). -/
def dictInsert (k : String) (v : Product) :
    List (String × Product) → List (String × Product)
  | [] => [(k, v)]
  | kv :: rest => if kv.1 = k then (k, v) :: rest else kv :: dictInsert k v rest

/-- The product-loading loop of `load_products`, building `products_dict` in
catalog encounter order.  The file read and JSON parse are abstracted: the
catalog arrives as the parsed list of products; generated ids are supplied by
the uuid oracle, indexed by catalog position. -/
def loadLoop (uuids : Nat → String) :
    Nat → List Product → List (String × Product) → List (String × Product)
  | _, [], dict => dict
  | i, p :: rest, dict =>
      let np := normalizeProduct (uuids i) p
      loadLoop uuids (i + 1) rest (dictInsert np.1 np.2 dict)

/-- `load_products`: the products dict keyed by normalized id. -/
def load_products (uuids : Nat → String) (catalog : List Product) :
    List (String × Product) :=
  loadLoop uuids 0 catalog []

/-- The per-run oracle: per item-index and pair-index generation results, the
per-item-index checkpoint-write outcomes, and the uuid supply. -/
structure RunOracle where
  qa : Nat → Nat → QAOracle
  saveOk : Nat → Bool
  uuids : Nat → String

/-- The mutable loop state of `main_async`'s item loop: the enumerate index,
the accumulator `all_qa_pairs`, the last written checkpoint content (`none`
before the first write), the warnings issued for skipped ids, and the shared
registry. -/
structure LoopState where
  index : Nat
  acc : List Exchange
  file : Option String
  warnings : List String
  gst : GenState
deriving Repr, DecidableEq

/-- The `for index, product_id in enumerate(product_ids)` loop of
`main_async`: a present id is processed (generation, accumulator extension,
checkpoint); an absent id is logged as a warning and skipped; a checkpoint
failure propagates out of the loop uncaught. -/
def mainLoop (products : List (String × Product)) (num_pairs : Nat)
    (oracle : RunOracle) : List String → LoopState → Except Unit LoopState
  | [], s => .ok s
  | pid :: rest, s =>
      match List.lookup pid products with
      | some product =>
          match process_product pid product num_pairs s.acc
              (oracle.qa s.index) (oracle.saveOk s.index) s.gst with
          | .ok r =>
              mainLoop products num_pairs oracle rest
                ⟨s.index + 1, r.1, some r.2.1, s.warnings, r.2.2⟩
          | .error e => .error e
      | none =>
          mainLoop products num_pairs oracle rest
            ⟨s.index + 1, s.acc, s.file, s.warnings ++ [pid], s.gst⟩

/-- `main_async`: load the products, default the requested ids to all loaded
keys, clear both registry sets, and drive the sequential item loop starting
from an empty accumulator and an untouched output destination. -/
def main_async (catalog : List Product) (productIdsArg : Option (List String))
    (num_pairs : Nat) (oracle : RunOracle) : Except Unit LoopState :=
  let products := load_products oracle.uuids catalog
  let product_ids := productIdsArg.getD (products.map (fun kv => kv.1))
  mainLoop products num_pairs oracle product_ids ⟨0, [], none, [], GenState.init⟩

/-! ### Event traces

The observable events of one generation call, used to state which operations a
call performs and in which order: semaphore acquisition and release
(`async with semaphore`), external service invocations (`model.invoke`), and
retry delays (`await asyncio.sleep(1)`). -/

/-- One observable event of a generation call. -/
inductive Event where
  | acquire
  | invoke
  | sleep
  | release
deriving Repr, DecidableEq

/-- Event trace of the question retry loop: an attempt that raises is followed
by a 1-second sleep; an attempt whose result is invalid retries immediately
with no sleep; a valid attempt ends the loop. -/
def questionAttemptsTrace : List InvokeResult → GenState → List Event
  | [], _ => []
  | .exn :: rest, st => .invoke :: .sleep :: questionAttemptsTrace rest st
  | .ok content :: rest, st =>
      if validNewQuestion st (pyStrip content) then [.invoke]
      else .invoke :: questionAttemptsTrace rest st

/-- Event trace of `generate_question`: the whole body runs inside a single
`async with semaphore` block. -/
def generate_question_trace (focusChoice : Nat) (resps : List InvokeResult)
    (st : GenState) : List Event :=
  .acquire :: (questionAttemptsTrace (resps.take 3) (pickFocus focusChoice st).2 ++ [.release])

/-- Event trace of the answer retry loop: a raised attempt sleeps and retries;
any returned content ends the loop. -/
def answerAttemptsTrace : List InvokeResult → List Event
  | [] => []
  | .exn :: rest => .invoke :: .sleep :: answerAttemptsTrace rest
  | .ok _ :: _ => [.invoke]

/-- Event trace of `generate_answer`: its whole body runs inside its own
`async with semaphore` block. -/
def generate_answer_trace (resps : List InvokeResult) : List Event :=
  .acquire :: (answerAttemptsTrace (resps.take 3) ++ [.release])

/-- Event trace of `generate_single_qa_pair`: the question phase completes
(releasing its slot) before the answer phase acquires its own slot. -/
def generate_single_qa_pair_trace (o : QAOracle) (st : GenState) : List Event :=
  generate_question_trace o.focusChoice o.qResps st ++ generate_answer_trace o.aResps

/-! ### The concurrency gate

`asyncio.Semaphore(concurrency)` as a transition system: tasks wait, are
admitted while fewer than K are running, and release their slot when done. -/

/-- Phase of one task with respect to the semaphore. -/
inductive TaskPhase where
  | waiting
  | running
  | done
deriving Repr, DecidableEq

/-- Number of currently admitted (running) tasks. -/
def runningCount (l : List TaskPhase) : Nat :=
  (l.filter (fun t => t = .running)).length

/-- One transition of the semaphore system with capacity K: a waiting task is
admitted only while fewer than K tasks are running; a running task may release
its slot at any time. -/
inductive gateStep (K : Nat) : List TaskPhase → List TaskPhase → Prop where
  | acq (l₁ l₂ : List TaskPhase) :
      runningCount (l₁ ++ .waiting :: l₂) < K →
      gateStep K (l₁ ++ .waiting :: l₂) (l₁ ++ .running :: l₂)
  | rel (l₁ l₂ : List TaskPhase) :
      gateStep K (l₁ ++ .running :: l₂) (l₁ ++ .done :: l₂)

/-- Reachability of a gate configuration from n initially waiting tasks. -/
def gateReach (K n : Nat) (l : List TaskPhase) : Prop :=
  Relation.ReflTransGen (gateStep K) (List.replicate n .waiting) l

/-! ### The focus pick as its sequence of atomic registry operations

In `generate_question` the focus pick is built from three separate atomic
`SafeSet` operations — `get_copy`, (possibly) `clear`, and `add` — with
suspension points between them, not one exclusive section.  Each `pickStep`
below is exactly one such atomic operation (plus local computation) against
the shared used-focus set. -/

/-- Local control state of one in-flight focus pick. -/
inductive PickState where
  | start (choice : Nat)
  | haveSnapshot (choice : Nat) (snap : List String)
  | afterClear (choice : Nat)
  | done (focus : String)
deriving Repr, DecidableEq

/-- One atomic step of the focus pick against the shared used-focus set. -/
def pickStep : PickState → List String → PickState × List String
  | .start c, s => (.haveSnapshot c s, s)
  | .haveSnapshot c snap, s =>
      let available := FOCUS_POINTS.filter (fun f => ¬ f ∈ snap)
      if available.isEmpty then (.afterClear c, [])
      else
        let focus := available.getD (c % available.length) ""
        (.done focus, setAdd focus s)
  | .afterClear c, s =>
      let focus := FOCUS_POINTS.getD (c % FOCUS_POINTS.length) ""
      (.done focus, setAdd focus s)
  | .done f, s => (.done f, s)

/-- Cooperative interleaving of two focus-pick tasks: each scheduler entry
says which task performs its next atomic step. -/
def runSched : List Bool → PickState × PickState × List String →
    PickState × PickState × List String
  | [], s => s
  | b :: rest, (t1, t2, shared) =>
      if b then
        let r := pickStep t1 shared
        runSched rest (r.1, t2, r.2)
      else
        let r := pickStep t2 shared
        runSched rest (t1, r.1, r.2)

/-! ### A run's sequence of question generations -/

/-- The inputs of one `generate_question` call. -/
structure QCall where
  pname : String
  choice : Nat
  resps : List InvokeResult

/-- The sequence of `generate_question` calls of a run, threading the shared
registry through in completion order. -/
def questionRun : List QCall → GenState → List (String × Bool) × GenState
  | [], st => ([], st)
  | c :: cs, st =>
      let r := generate_question c.pname c.choice c.resps st
      let rest := questionRun cs r.2
      (r.1 :: rest.1, rest.2)

/-- The successfully generated (non-fallback) question texts of a run. -/
def nonFallbackTexts (rs : List (String × Bool)) : List String :=
  rs.filterMap (fun r => if r.2 then none else some r.1)

/-! ## Helper lemmas -/

theorem setAdd_mem_self (x : String) (s : List String) : x ∈ setAdd x s := by
  by_cases h : x ∈ s <;> simp [setAdd, h]

theorem setAdd_subset (x : String) (s : List String) : s ⊆ setAdd x s := by
  intro y hy
  by_cases h : x ∈ s <;> simp [setAdd, h, hy]

theorem validNewQuestion_spec (st : GenState) (q : String)
    (h : validNewQuestion st q = true) :
    2 < q.length ∧ ¬ q ∈ st.usedQuestions := by
  simp [validNewQuestion] at h
  exact ⟨h.1.2, h.2⟩

theorem pickFocus_usedQuestions (c : Nat) (st : GenState) :
    (pickFocus c st).2.usedQuestions = st.usedQuestions := by
  simp only [pickFocus]
  split <;> rfl

theorem questionAttempts_none (resps : List InvokeResult) : ∀ st st',
    questionAttempts resps st = (none, st') → st' = st := by
  induction resps with
  | nil =>
      intro st st' h
      simp [questionAttempts] at h
      exact h.symm
  | cons r rest ih =>
      intro st st' h
      cases r with
      | exn => exact ih st st' (by simpa [questionAttempts] using h)
      | ok content =>
          by_cases hv : validNewQuestion st (pyStrip content) = true
          · simp [questionAttempts, hv] at h
          · exact ih st st' (by simpa [questionAttempts, hv] using h)

theorem questionAttempts_some (resps : List InvokeResult) : ∀ st q st',
    questionAttempts resps st = (some q, st') →
    validNewQuestion st q = true ∧
      st' = { st with usedQuestions := setAdd q st.usedQuestions } := by
  induction resps with
  | nil =>
      intro st q st' h
      simp [questionAttempts] at h
  | cons r rest ih =>
      intro st q st' h
      cases r with
      | exn => exact ih st q st' (by simpa [questionAttempts] using h)
      | ok content =>
          by_cases hv : validNewQuestion st (pyStrip content) = true
          · simp only [questionAttempts, hv, if_true] at h
            obtain ⟨h1, h2⟩ := Prod.mk.injEq .. ▸ h
            obtain rfl := Option.some.injEq .. ▸ h1
            exact ⟨hv, h2.symm⟩
          · exact ih st q st' (by simpa [questionAttempts, hv] using h)

theorem generate_question_nonfallback (pn : String) (c : Nat) (rs : List InvokeResult)
    (st : GenState) (q : String) (st' : GenState)
    (h : generate_question pn c rs st = ((q, false), st')) :
    2 < q.length ∧ ¬ q ∈ st.usedQuestions ∧ q ∈ st'.usedQuestions := by
  unfold generate_question at h
  rcases hqa : questionAttempts (rs.take 3) (pickFocus c st).2 with ⟨oq, st2⟩
  rw [hqa] at h
  cases oq with
  | some q0 =>
      injection h with h1 h2
      injection h1 with h1a h1b
      subst h1a
      subst h2
      obtain ⟨hv, hst⟩ := questionAttempts_some _ _ _ _ hqa
      obtain ⟨hl, hm⟩ := validNewQuestion_spec _ _ hv
      rw [pickFocus_usedQuestions] at hm
      refine ⟨hl, hm, ?_⟩
      rw [hst]
      exact setAdd_mem_self _ _
  | none => simp at h

theorem generate_question_fallback (pn : String) (c : Nat) (rs : List InvokeResult)
    (st : GenState) (q : String) (st' : GenState)
    (h : generate_question pn c rs st = ((q, true), st')) :
    q = defaultQuestion pn (pickFocus c st).1 ∧ q ∈ st'.usedQuestions := by
  unfold generate_question at h
  rcases hqa : questionAttempts (rs.take 3) (pickFocus c st).2 with ⟨oq, st2⟩
  rw [hqa] at h
  cases oq with
  | some q0 => simp at h
  | none =>
      injection h with h1 h2
      injection h1 with h1a h1b
      subst h1a
      subst h2
      exact ⟨rfl, setAdd_mem_self _ _⟩

theorem generate_question_mono (pn : String) (c : Nat) (rs : List InvokeResult)
    (st : GenState) (r : String × Bool) (st' : GenState)
    (h : generate_question pn c rs st = (r, st')) :
    st.usedQuestions ⊆ st'.usedQuestions := by
  unfold generate_question at h
  rcases hqa : questionAttempts (rs.take 3) (pickFocus c st).2 with ⟨oq, st2⟩
  rw [hqa] at h
  cases oq with
  | some q0 =>
      injection h with h1 h2
      subst h2
      obtain ⟨-, hst⟩ := questionAttempts_some _ _ _ _ hqa
      rw [hst]
      intro x hx
      exact setAdd_subset _ _ (by rw [pickFocus_usedQuestions]; exact hx)
  | none =>
      injection h with h1 h2
      subst h2
      obtain rfl := questionAttempts_none _ _ _ hqa
      intro x hx
      exact setAdd_subset _ _ (by rw [pickFocus_usedQuestions]; exact hx)

theorem questionRun_mono (cs : List QCall) : ∀ st : GenState,
    st.usedQuestions ⊆ (questionRun cs st).2.usedQuestions := by
  induction cs with
  | nil => intro st; simp [questionRun]
  | cons c cs ih =>
      intro st
      rcases hr : generate_question c.pname c.choice c.resps st with ⟨r1, st1⟩
      have : (questionRun (c :: cs) st).2 = (questionRun cs st1).2 := by
        simp [questionRun, hr]
      rw [this]
      exact fun x hx => ih st1 (generate_question_mono _ _ _ _ _ _ hr hx)

theorem questionRun_nonFallback (cs : List QCall) : ∀ st : GenState,
    (∀ q ∈ nonFallbackTexts (questionRun cs st).1, ¬ q ∈ st.usedQuestions) ∧
      (nonFallbackTexts (questionRun cs st).1).Nodup := by
  induction cs with
  | nil => intro st; simp [questionRun, nonFallbackTexts]
  | cons c cs ih =>
      intro st
      rcases hr : generate_question c.pname c.choice c.resps st with ⟨⟨q, fb⟩, st1⟩
      have hres : (questionRun (c :: cs) st).1 = (q, fb) :: (questionRun cs st1).1 := by
        simp [questionRun, hr]
      have htail :
          nonFallbackTexts ((questionRun (c :: cs) st).1) =
            (if fb then [] else [q]) ++ nonFallbackTexts ((questionRun cs st1).1) := by
        rw [hres]
        cases fb <;> simp [nonFallbackTexts]
      cases fb with
      | true =>
          rw [htail]
          simp only [Bool.if_true_left, List.nil_append, if_pos]
          constructor
          · intro x hx hmem
            exact (ih st1).1 x hx (generate_question_mono _ _ _ _ _ _ hr hmem)
          · exact (ih st1).2
      | false =>
          obtain ⟨-, hnotin, hin⟩ := generate_question_nonfallback _ _ _ _ _ _ hr
          rw [htail]
          simp only [Bool.false_eq_true, if_false, List.singleton_append]
          constructor
          · intro x hx hmem
            rcases List.mem_cons.mp hx with rfl | hx
            · exact hnotin hmem
            · exact (ih st1).1 x hx (generate_question_mono _ _ _ _ _ _ hr hmem)
          · rw [List.nodup_cons]
            exact ⟨fun hx => (ih st1).1 q hx hin, (ih st1).2⟩

theorem validNewQuestion_of_mem (st : GenState) (q : String)
    (h : q ∈ st.usedQuestions) : validNewQuestion st q = false := by
  have hc : st.usedQuestions.contains q = true := by simpa using h
  simp [validNewQuestion, hc]
  intro _ _
  exact h

theorem questionAttempts_duplicate (st : GenState) (content : String)
    (rest : List InvokeResult) (h : pyStrip content ∈ st.usedQuestions) :
    questionAttempts (.ok content :: rest) st = questionAttempts rest st := by
  simp [questionAttempts, validNewQuestion_of_mem st _ h]

theorem validNewQuestion_congr (st₁ st₂ : GenState) (q : String)
    (h : st₁.usedQuestions = st₂.usedQuestions) :
    validNewQuestion st₁ q = validNewQuestion st₂ q := by
  simp [validNewQuestion, h]

theorem questionAttempts_invalid (resps : List InvokeResult) : ∀ st : GenState,
    (∀ r ∈ resps, r = .exn ∨
        ∃ ct, r = .ok ct ∧ validNewQuestion st (pyStrip ct) = false) →
    questionAttempts resps st = (none, st) := by
  induction resps with
  | nil => intro st _; rfl
  | cons r rest ih =>
      intro st hall
      cases r with
      | exn =>
          simpa [questionAttempts] using
            ih st (fun x hx => hall x (List.mem_cons_of_mem _ hx))
      | ok ct =>
          rcases hall (.ok ct) (List.mem_cons_self _ _) with h | ⟨ct', heq, hv⟩
          · exact absurd h (by simp)
          · injection heq with hceq
            subst hceq
            rw [questionAttempts, if_neg (by rw [hv]; exact Bool.false_ne_true)]
            exact ih st (fun x hx => hall x (List.mem_cons_of_mem _ hx))

theorem generate_question_all_fail (pn : String) (c : Nat) (rs : List InvokeResult)
    (st : GenState)
    (hall : ∀ r ∈ rs.take 3, r = .exn ∨
        ∃ ct, r = .ok ct ∧ validNewQuestion st (pyStrip ct) = false) :
    (generate_question pn c rs st).1 = (defaultQuestion pn (pickFocus c st).1, true) := by
  have hall' : ∀ r ∈ rs.take 3, r = .exn ∨
      ∃ ct, r = .ok ct ∧ validNewQuestion (pickFocus c st).2 (pyStrip ct) = false := by
    intro r hr
    rcases hall r hr with h | ⟨ct, h1, h2⟩
    · exact Or.inl h
    · refine Or.inr ⟨ct, h1, ?_⟩
      rw [validNewQuestion_congr _ st _ (pickFocus_usedQuestions c st)]
      exact h2
  unfold generate_question
  rw [questionAttempts_invalid _ _ hall']

theorem answerAttempts_none (l : List InvokeResult)
    (h : ∀ r ∈ l, r = .exn) : answerAttempts l = none := by
  induction l with
  | nil => rfl
  | cons r rest ih =>
      cases r with
      | exn =>
          simpa [answerAttempts] using ih (fun x hx => h x (List.mem_cons_of_mem _ hx))
      | ok ct => exact absurd (h (.ok ct) (List.mem_cons_self _ _)) (by simp)

theorem generate_answer_all_exn (rs : List InvokeResult)
    (h : ∀ r ∈ rs.take 3, r = .exn) : generate_answer rs = fallbackAnswer := by
  unfold generate_answer
  rw [answerAttempts_none _ h]
  rfl

theorem process_product_ok (pid : String) (product : Product) (N : Nat)
    (acc : List Exchange) (oracles : Nat → QAOracle) (st : GenState) :
    process_product pid product N acc oracles true st =
      .ok (acc ++ (generate_qa_pair ((product.get "id").getD pid) product N oracles st).1,
           serializeQAPairs
             (acc ++ (generate_qa_pair ((product.get "id").getD pid) product N oracles st).1),
           (generate_qa_pair ((product.get "id").getD pid) product N oracles st).2) := by
  simp [process_product, save_qa_pairs]

theorem listGetD_mem {α : Type} : ∀ (l : List α) (i : Nat) (d : α),
    i < l.length → l.getD i d ∈ l := by
  intro l
  induction l with
  | nil => intro i d h; simp at h
  | cons a t ih =>
      intro i d h
      cases i with
      | zero => simp [List.getD]
      | succ n =>
          rw [List.getD_cons_succ]
          exact List.mem_cons_of_mem _ (ih n d (by simpa using h))

theorem listGetD_eq_get {α : Type} : ∀ (l : List α) (i : Nat) (d : α)
    (h : i < l.length), l.getD i d = l.get ⟨i, h⟩ := by
  intro l
  induction l with
  | nil => intro i d h; simp at h
  | cons a t ih =>
      intro i d h
      cases i with
      | zero => rfl
      | succ n =>
          rw [List.getD_cons_succ]
          exact ih n d (by simpa using h)

theorem pickFocus_spec (c : Nat) (st : GenState) :
    (pickFocus c st).1 ∈ FOCUS_POINTS ∧
    (¬ (pickFocus c st).1 ∈ st.usedFocuses ∨ ∀ f ∈ FOCUS_POINTS, f ∈ st.usedFocuses) ∧
    (pickFocus c st).1 ∈ (pickFocus c st).2.usedFocuses := by
  have h15 : 0 < FOCUS_POINTS.length := by decide
  by_cases hav : (FOCUS_POINTS.filter (fun f => ¬ f ∈ st.usedFocuses)).isEmpty = true
  · have hall : ∀ f ∈ FOCUS_POINTS, f ∈ st.usedFocuses := by
      intro f hf
      by_contra hnf
      have hmem : f ∈ FOCUS_POINTS.filter (fun f => ¬ f ∈ st.usedFocuses) := by
        simp [List.mem_filter, hf, hnf]
      rw [List.isEmpty_iff] at hav
      rw [hav] at hmem
      simp at hmem
    have hout : pickFocus c st =
        (FOCUS_POINTS.getD (c % FOCUS_POINTS.length) "",
         { st with
            usedFocuses := setAdd (FOCUS_POINTS.getD (c % FOCUS_POINTS.length) "") [] }) := by
      simp only [pickFocus]
      rw [if_pos hav]
    rw [hout]
    dsimp only
    exact ⟨listGetD_mem _ _ _ (Nat.mod_lt _ h15), Or.inr hall, setAdd_mem_self _ _⟩
  · have hlen : 0 < (FOCUS_POINTS.filter (fun f => ¬ f ∈ st.usedFocuses)).length := by
      rcases Nat.eq_zero_or_pos (FOCUS_POINTS.filter (fun f => ¬ f ∈ st.usedFocuses)).length
        with hz | hp
      · exact absurd (by rw [List.isEmpty_iff]; exact List.length_eq_zero.mp hz) hav
      · exact hp
    have hout : pickFocus c st =
        ((FOCUS_POINTS.filter (fun f => ¬ f ∈ st.usedFocuses)).getD
            (c % (FOCUS_POINTS.filter (fun f => ¬ f ∈ st.usedFocuses)).length) "",
         { st with
            usedFocuses := setAdd
              ((FOCUS_POINTS.filter (fun f => ¬ f ∈ st.usedFocuses)).getD
                (c % (FOCUS_POINTS.filter (fun f => ¬ f ∈ st.usedFocuses)).length) "")
              st.usedFocuses }) := by
      simp only [pickFocus]
      rw [if_neg hav]
    have hmem := listGetD_mem (FOCUS_POINTS.filter (fun f => ¬ f ∈ st.usedFocuses))
      (c % (FOCUS_POINTS.filter (fun f => ¬ f ∈ st.usedFocuses)).length) ""
      (Nat.mod_lt _ hlen)
    have hsplit := List.mem_filter.mp hmem
    rw [hout]
    dsimp only
    exact ⟨hsplit.1, Or.inl (by simpa using hsplit.2), setAdd_mem_self _ _⟩

theorem pickFocus_exhausted (st : GenState)
    (hall : ∀ f ∈ FOCUS_POINTS, f ∈ st.usedFocuses) :
    ∀ target ∈ FOCUS_POINTS, ∃ c, (pickFocus c st).1 = target := by
  have hav : (FOCUS_POINTS.filter (fun f => ¬ f ∈ st.usedFocuses)).isEmpty = true := by
    rw [List.isEmpty_iff, List.filter_eq_nil_iff]
    intro a ha
    simp [hall a ha]
  intro target htarget
  obtain ⟨⟨i, hi⟩, hget⟩ := List.mem_iff_get.mp htarget
  refine ⟨i, ?_⟩
  simp only [pickFocus]
  rw [if_pos hav]
  rw [Nat.mod_eq_of_lt hi, listGetD_eq_get _ _ _ hi]
  exact hget

theorem runSched_seq_pick (c : Nat) (s : List String) (t2 : PickState)
    (qs : List String) :
    runSched [true, true, true] (.start c, t2, s) =
      (.done (pickFocus c ⟨s, qs⟩).1, t2, (pickFocus c ⟨s, qs⟩).2.usedFocuses) := by
  by_cases hav : (FOCUS_POINTS.filter (fun f => ¬ f ∈ s)).isEmpty = true
  · have h2 : pickStep (.haveSnapshot c s) s = (.afterClear c, []) := by
      simp only [pickStep]
      rw [if_pos hav]
    have hp : pickFocus c ⟨s, qs⟩ =
        (FOCUS_POINTS.getD (c % FOCUS_POINTS.length) "",
         ⟨setAdd (FOCUS_POINTS.getD (c % FOCUS_POINTS.length) "") [], qs⟩) := by
      simp only [pickFocus]
      dsimp only
      rw [if_pos hav]
    rw [hp]
    calc runSched [true, true, true] (.start c, t2, s)
        = runSched [true, true] (.haveSnapshot c s, t2, s) := rfl
      _ = runSched [true] (.afterClear c, t2, []) := by
            show runSched [true]
                ((pickStep (.haveSnapshot c s) s).1, t2, (pickStep (.haveSnapshot c s) s).2) =
              runSched [true] (.afterClear c, t2, [])
            rw [h2]
      _ = (.done (FOCUS_POINTS.getD (c % FOCUS_POINTS.length) ""), t2,
            setAdd (FOCUS_POINTS.getD (c % FOCUS_POINTS.length) "") []) := rfl
  · have h2 : pickStep (.haveSnapshot c s) s =
        (.done ((FOCUS_POINTS.filter (fun f => ¬ f ∈ s)).getD
            (c % (FOCUS_POINTS.filter (fun f => ¬ f ∈ s)).length) ""),
         setAdd ((FOCUS_POINTS.filter (fun f => ¬ f ∈ s)).getD
            (c % (FOCUS_POINTS.filter (fun f => ¬ f ∈ s)).length) "") s) := by
      simp only [pickStep]
      rw [if_neg hav]
    have hp : pickFocus c ⟨s, qs⟩ =
        ((FOCUS_POINTS.filter (fun f => ¬ f ∈ s)).getD
            (c % (FOCUS_POINTS.filter (fun f => ¬ f ∈ s)).length) "",
         ⟨setAdd ((FOCUS_POINTS.filter (fun f => ¬ f ∈ s)).getD
            (c % (FOCUS_POINTS.filter (fun f => ¬ f ∈ s)).length) "") s, qs⟩) := by
      simp only [pickFocus]
      dsimp only
      rw [if_neg hav]
    rw [hp]
    calc runSched [true, true, true] (.start c, t2, s)
        = runSched [true, true] (.haveSnapshot c s, t2, s) := rfl
      _ = runSched [true]
            (.done ((FOCUS_POINTS.filter (fun f => ¬ f ∈ s)).getD
                (c % (FOCUS_POINTS.filter (fun f => ¬ f ∈ s)).length) ""), t2,
             setAdd ((FOCUS_POINTS.filter (fun f => ¬ f ∈ s)).getD
                (c % (FOCUS_POINTS.filter (fun f => ¬ f ∈ s)).length) "") s) := by
            show runSched [true]
                ((pickStep (.haveSnapshot c s) s).1, t2, (pickStep (.haveSnapshot c s) s).2) = _
            rw [h2]
      _ = (.done ((FOCUS_POINTS.filter (fun f => ¬ f ∈ s)).getD
              (c % (FOCUS_POINTS.filter (fun f => ¬ f ∈ s)).length) ""), t2,
           setAdd ((FOCUS_POINTS.filter (fun f => ¬ f ∈ s)).getD
              (c % (FOCUS_POINTS.filter (fun f => ¬ f ∈ s)).length) "") s) := rfl

theorem runningCount_replicate_waiting (n : Nat) :
    runningCount (List.replicate n .waiting) = 0 := by
  induction n with
  | zero => rfl
  | succ n ih => simp [runningCount, List.replicate_succ, List.filter_cons]

theorem runningCount_append (l₁ l₂ : List TaskPhase) :
    runningCount (l₁ ++ l₂) = runningCount l₁ + runningCount l₂ := by
  simp [runningCount, List.filter_append]

theorem runningCount_cons (t : TaskPhase) (l : List TaskPhase) :
    runningCount (t :: l) = (if t = TaskPhase.running then 1 else 0) + runningCount l := by
  by_cases h : t = TaskPhase.running <;>
    simp [runningCount, List.filter_cons, h, Nat.add_comm]

theorem gate_bound (K n : Nat) (l : List TaskPhase) (h : gateReach K n l) :
    runningCount l ≤ K := by
  unfold gateReach at h
  induction h with
  | refl => simp [runningCount_replicate_waiting]
  | tail hsteps hstep ih =>
      cases hstep with
      | acq l₁ l₂ hlt =>
          rw [runningCount_append, runningCount_cons] at hlt
          rw [runningCount_append, runningCount_cons]
          simp only [reduceCtorEq, if_false, if_pos] at hlt ⊢
          omega
      | rel l₁ l₂ =>
          rw [runningCount_append, runningCount_cons] at ih
          rw [runningCount_append, runningCount_cons]
          simp only [reduceCtorEq, if_false, if_pos] at ih ⊢
          omega

theorem questionAttemptsTrace_events (resps : List InvokeResult) : ∀ st : GenState,
    ∀ e ∈ questionAttemptsTrace resps st, e = .invoke ∨ e = .sleep := by
  induction resps with
  | nil => intro st e he; simp [questionAttemptsTrace] at he
  | cons r rest ih =>
      intro st e he
      cases r with
      | exn =>
          simp only [questionAttemptsTrace, List.mem_cons] at he
          rcases he with rfl | rfl | he
          · exact Or.inl rfl
          · exact Or.inr rfl
          · exact ih st e he
      | ok ct =>
          by_cases hv : validNewQuestion st (pyStrip ct) = true
          · simp only [questionAttemptsTrace, if_pos hv, List.mem_cons,
              List.not_mem_nil, or_false] at he
            exact Or.inl he
          · simp only [questionAttemptsTrace, if_neg hv, List.mem_cons] at he
            rcases he with rfl | he
            · exact Or.inl rfl
            · exact ih st e he

theorem answerAttemptsTrace_events (resps : List InvokeResult) :
    ∀ e ∈ answerAttemptsTrace resps, e = .invoke ∨ e = .sleep := by
  induction resps with
  | nil => intro e he; simp [answerAttemptsTrace] at he
  | cons r rest ih =>
      intro e he
      cases r with
      | exn =>
          simp only [answerAttemptsTrace, List.mem_cons] at he
          rcases he with rfl | rfl | he
          · exact Or.inl rfl
          · exact Or.inr rfl
          · exact ih e he
      | ok ct =>
          simp only [answerAttemptsTrace, List.mem_cons, List.not_mem_nil,
            or_false] at he
          exact Or.inl he

theorem bracket_counts (mid : List Event) (hacq : ¬ .acquire ∈ mid)
    (hrel : ¬ .release ∈ mid) :
    (Event.acquire :: mid ++ [Event.release]).count .acquire = 1 ∧
    (Event.acquire :: mid ++ [Event.release]).count .release = 1 := by
  constructor <;>
    simp [List.count_cons, List.count_append,
      List.count_eq_zero.mpr hacq, List.count_eq_zero.mpr hrel]

theorem generate_single_qa_pair_id (pid pname : String) (o : QAOracle)
    (st : GenState) : (generate_single_qa_pair pid pname o st).1.id = pid := rfl

theorem pairsLoop_map_id (pid pname : String) (oracles : Nat → QAOracle) :
    ∀ (n i : Nat) (st : GenState),
      ((pairsLoop pid pname oracles n i st).1).map (fun e => e.id) =
        List.replicate n pid := by
  intro n
  induction n with
  | zero => intro i st; rfl
  | succ n ih =>
      intro i st
      simp [pairsLoop, generate_single_qa_pair_id, ih, List.replicate_succ]

theorem generate_qa_pair_map_id (qaid : String) (product : Product) (N : Nat)
    (oracles : Nat → QAOracle) (st : GenState) :
    ((generate_qa_pair qaid product N oracles st).1).map (fun e => e.id) =
      List.replicate N qaid := by
  simp only [generate_qa_pair]
  exact pairsLoop_map_id _ _ _ _ _ _

theorem process_product_content (pid : String) (product : Product) (N : Nat)
    (acc : List Exchange) (oracles : Nat → QAOracle) (b : Bool) (st : GenState) :
    ∀ v, process_product pid product N acc oracles b st = .ok v →
      v.2.1 = serializeQAPairs v.1 ∧
      v.1 = acc ++ (generate_qa_pair ((product.get "id").getD pid) product N oracles st).1 := by
  intro v h
  cases b with
  | false => simp [process_product, save_qa_pairs] at h
  | true =>
      rw [process_product_ok] at h
      injection h with h
      rw [← h]
      exact ⟨rfl, rfl⟩

theorem mainLoop_ok_spec (products : List (String × Product)) (N : Nat)
    (oracle : RunOracle) (hsave : ∀ n, oracle.saveOk n = true) :
    ∀ (ids : List String) (s : LoopState),
      (∀ pid ∈ ids, ∀ p, List.lookup pid products = some p →
          (p.get "id").getD pid = pid) →
      ∃ s', mainLoop products N oracle ids s = .ok s' ∧
        s'.acc.map (fun e => e.id) =
          s.acc.map (fun e => e.id) ++
            (ids.filter (fun pid => (List.lookup pid products).isSome)).flatMap
              (fun pid => List.replicate N pid) ∧
        s'.warnings = s.warnings ++
          ids.filter (fun pid => (List.lookup pid products).isNone) := by
  intro ids
  induction ids with
  | nil =>
      intro s _
      exact ⟨s, rfl, by simp, by simp⟩
  | cons pid rest ih =>
      intro s hid
      cases hlk : List.lookup pid products with
      | none =>
          have hstep : mainLoop products N oracle (pid :: rest) s =
              mainLoop products N oracle rest
                ⟨s.index + 1, s.acc, s.file, s.warnings ++ [pid], s.gst⟩ := by
            simp [mainLoop, hlk]
          obtain ⟨s', h1, h2, h3⟩ :=
            ih ⟨s.index + 1, s.acc, s.file, s.warnings ++ [pid], s.gst⟩
              (fun q hq p hp => hid q (List.mem_cons_of_mem _ hq) p hp)
          refine ⟨s', hstep.trans h1, ?_, ?_⟩
          · rw [h2]
            simp [List.filter_cons, hlk]
          · rw [h3]
            simp [List.filter_cons, hlk]
      | some p =>
          have heff : (p.get "id").getD pid = pid :=
            hid pid (List.mem_cons_self _ _) p hlk
          have hstep : mainLoop products N oracle (pid :: rest) s =
              mainLoop products N oracle rest
                ⟨s.index + 1,
                 s.acc ++ (generate_qa_pair pid p N (oracle.qa s.index) s.gst).1,
                 some (serializeQAPairs
                   (s.acc ++ (generate_qa_pair pid p N (oracle.qa s.index) s.gst).1)),
                 s.warnings,
                 (generate_qa_pair pid p N (oracle.qa s.index) s.gst).2⟩ := by
            have hok := process_product_ok pid p N s.acc (oracle.qa s.index) s.gst
            rw [heff] at hok
            simp [mainLoop, hlk, hsave s.index, hok]
          obtain ⟨s', h1, h2, h3⟩ :=
            ih ⟨s.index + 1,
                s.acc ++ (generate_qa_pair pid p N (oracle.qa s.index) s.gst).1,
                some (serializeQAPairs
                  (s.acc ++ (generate_qa_pair pid p N (oracle.qa s.index) s.gst).1)),
                s.warnings,
                (generate_qa_pair pid p N (oracle.qa s.index) s.gst).2⟩
              (fun q hq p' hp' => hid q (List.mem_cons_of_mem _ hq) p' hp')
          refine ⟨s', hstep.trans h1, ?_, ?_⟩
          · rw [h2]
            simp only [List.map_append, generate_qa_pair_map_id,
              List.filter_cons, hlk, Option.isSome_some, if_pos, List.flatMap_cons,
              List.append_assoc]
          · rw [h3]
            simp [List.filter_cons, hlk]

theorem flatMap_replicate_length (N : Nat) : ∀ ids : List String,
    (ids.flatMap (fun pid => List.replicate N pid)).length = N * ids.length := by
  intro ids
  induction ids with
  | nil => rfl
  | cons q rest ih =>
      simp only [List.flatMap_cons, List.length_append, List.length_replicate, ih,
        List.length_cons]
      ring

theorem filter_id_length (pid : String) : ∀ l : List Exchange,
    (l.filter (fun e => e.id = pid)).length =
      ((l.map (fun e => e.id)).filter (fun x => x = pid)).length := by
  intro l
  induction l with
  | nil => rfl
  | cons e t ih =>
      by_cases h : e.id = pid <;> simp [List.filter_cons, h, ih]

theorem flatMap_replicate_count_notmem (N : Nat) (pid : String) :
    ∀ ids : List String, ¬ pid ∈ ids →
      ((ids.flatMap (fun q => List.replicate N q)).filter (fun x => x = pid)).length = 0 := by
  intro ids
  induction ids with
  | nil => intro _; rfl
  | cons q rest ih =>
      intro hmem
      have hq : ¬ q = pid := fun h => hmem (h ▸ List.mem_cons_self _ _)
      have hrepl : (List.replicate N q).filter (fun x => x = pid) = [] := by
        rw [List.filter_eq_nil_iff]
        intro a ha
        rw [List.eq_of_mem_replicate ha]
        simp [hq]
      simp only [List.flatMap_cons, List.filter_append, List.length_append, hrepl]
      simpa using ih (fun h => hmem (List.mem_cons_of_mem _ h))

theorem flatMap_replicate_count (N : Nat) (pid : String) :
    ∀ ids : List String, ids.Nodup → pid ∈ ids →
      ((ids.flatMap (fun q => List.replicate N q)).filter (fun x => x = pid)).length = N := by
  intro ids
  induction ids with
  | nil => intro _ h; simp at h
  | cons q rest ih =>
      intro hnd hmem
      rw [List.nodup_cons] at hnd
      rcases List.mem_cons.mp hmem with rfl | hmem
      · have hrepl : (List.replicate N pid).filter (fun x => x = pid) = List.replicate N pid := by
          rw [List.filter_eq_self]
          intro a ha
          rw [List.eq_of_mem_replicate ha]
          simp
        simp only [List.flatMap_cons, List.filter_append, List.length_append, hrepl,
          List.length_replicate]
        rw [flatMap_replicate_count_notmem N pid rest hnd.1]
        omega
      · have hq : ¬ q = pid := fun h => hnd.1 (h ▸ hmem)
        have hrepl : (List.replicate N q).filter (fun x => x = pid) = [] := by
          rw [List.filter_eq_nil_iff]
          intro a ha
          rw [List.eq_of_mem_replicate ha]
          simp [hq]
        simp only [List.flatMap_cons, List.filter_append, List.length_append, hrepl]
        simpa using ih hnd.2 hmem

theorem pairsLoop_length (pid pname : String) (oracles : Nat → QAOracle)
    (n i : Nat) (st : GenState) :
    ((pairsLoop pid pname oracles n i st).1).length = n := by
  have hh := congrArg List.length (pairsLoop_map_id pid pname oracles n i st)
  rwa [List.length_map, List.length_replicate] at hh

theorem generate_qa_pair_length (qaid : String) (product : Product) (N : Nat)
    (oracles : Nat → QAOracle) (st : GenState) :
    ((generate_qa_pair qaid product N oracles st).1).length = N := by
  simp only [generate_qa_pair]
  exact pairsLoop_length _ _ _ _ _ _

theorem mainLoop_len_spec (products : List (String × Product)) (N : Nat)
    (oracle : RunOracle) (hsave : ∀ n, oracle.saveOk n = true) :
    ∀ (ids : List String) (s : LoopState),
      ∃ s', mainLoop products N oracle ids s = .ok s' ∧
        s'.acc.length = s.acc.length +
          N * (ids.filter (fun pid => (List.lookup pid products).isSome)).length ∧
        s'.warnings = s.warnings ++
          ids.filter (fun pid => (List.lookup pid products).isNone) := by
  intro ids
  induction ids with
  | nil =>
      intro s
      exact ⟨s, rfl, by simp, by simp⟩
  | cons pid rest ih =>
      intro s
      cases hlk : List.lookup pid products with
      | none =>
          have hstep : mainLoop products N oracle (pid :: rest) s =
              mainLoop products N oracle rest
                ⟨s.index + 1, s.acc, s.file, s.warnings ++ [pid], s.gst⟩ := by
            simp [mainLoop, hlk]
          obtain ⟨s', h1, h2, h3⟩ :=
            ih ⟨s.index + 1, s.acc, s.file, s.warnings ++ [pid], s.gst⟩
          refine ⟨s', hstep.trans h1, ?_, ?_⟩
          · rw [h2]
            simp [List.filter_cons, hlk]
          · rw [h3]
            simp [List.filter_cons, hlk]
      | some p =>
          have hstep : mainLoop products N oracle (pid :: rest) s =
              mainLoop products N oracle rest
                ⟨s.index + 1,
                 s.acc ++ (generate_qa_pair ((p.get "id").getD pid) p N
                   (oracle.qa s.index) s.gst).1,
                 some (serializeQAPairs
                   (s.acc ++ (generate_qa_pair ((p.get "id").getD pid) p N
                     (oracle.qa s.index) s.gst).1)),
                 s.warnings,
                 (generate_qa_pair ((p.get "id").getD pid) p N
                   (oracle.qa s.index) s.gst).2⟩ := by
            simp [mainLoop, hlk, hsave s.index, process_product_ok]
          obtain ⟨s', h1, h2, h3⟩ :=
            ih ⟨s.index + 1,
                s.acc ++ (generate_qa_pair ((p.get "id").getD pid) p N
                  (oracle.qa s.index) s.gst).1,
                some (serializeQAPairs
                  (s.acc ++ (generate_qa_pair ((p.get "id").getD pid) p N
                    (oracle.qa s.index) s.gst).1)),
                s.warnings,
                (generate_qa_pair ((p.get "id").getD pid) p N
                  (oracle.qa s.index) s.gst).2⟩
          refine ⟨s', hstep.trans h1, ?_, ?_⟩
          · rw [h2]
            simp only [List.length_append, generate_qa_pair_length,
              List.filter_cons, hlk, Option.isSome_some, if_pos, List.length_cons]
            ring
          · rw [h3]
            simp [List.filter_cons, hlk]

theorem mainLoop_append (products : List (String × Product)) (N : Nat)
    (oracle : RunOracle) : ∀ (l₁ l₂ : List String) (s : LoopState),
    mainLoop products N oracle (l₁ ++ l₂) s =
      (mainLoop products N oracle l₁ s).bind (mainLoop products N oracle l₂) := by
  intro l₁
  induction l₁ with
  | nil => intro l₂ s; rfl
  | cons pid rest ih =>
      intro l₂ s
      cases hlk : List.lookup pid products with
      | none =>
          simp only [List.cons_append, mainLoop, hlk]
          exact ih l₂ _
      | some p =>
          simp only [List.cons_append, mainLoop, hlk]
          cases hp : process_product pid p N s.acc (oracle.qa s.index)
              (oracle.saveOk s.index) s.gst with
          | ok v => exact ih l₂ _
          | error e => rfl

theorem mainLoop_file_inv (products : List (String × Product)) (N : Nat)
    (oracle : RunOracle) : ∀ (ids : List String) (s s' : LoopState),
    mainLoop products N oracle ids s = .ok s' →
    (s.file = none ∨ s.file = some (serializeQAPairs s.acc)) →
    (s'.file = none ∨ s'.file = some (serializeQAPairs s'.acc)) := by
  intro ids
  induction ids with
  | nil =>
      intro s s' h hinv
      injection h with h
      rw [← h]
      exact hinv
  | cons pid rest ih =>
      intro s s' h hinv
      cases hlk : List.lookup pid products with
      | none =>
          simp only [mainLoop, hlk] at h
          exact ih _ _ h hinv
      | some p =>
          simp only [mainLoop, hlk] at h
          cases hp : process_product pid p N s.acc (oracle.qa s.index)
              (oracle.saveOk s.index) s.gst with
          | error e =>
              rw [hp] at h
              exact absurd h (by simp)
          | ok v =>
              rw [hp] at h
              have hc := (process_product_content _ _ _ _ _ _ _ v hp).1
              exact ih _ _ h (Or.inr (by rw [show some v.2.1 =
                some (serializeQAPairs v.1) from by rw [hc]]))

/-! ## Claim theorems -/

/-- C3: every successfully-generated (non-fallback) question text is unique
within a run: `generate_question` returns a model-generated question only if
it was absent from the used-questions registry at the call, records it in the
registry before returning, and consequently the non-fallback question texts
of any sequence of calls threading the registry are pairwise distinct. -/
theorem c3_unique_questions :
    (∀ (pn : String) (c : Nat) (rs : List InvokeResult) (st : GenState)
        (q : String) (st' : GenState),
        generate_question pn c rs st = ((q, false), st') →
        ¬ q ∈ st.usedQuestions ∧ q ∈ st'.usedQuestions) ∧
    (∀ (cs : List QCall) (st : GenState),
        (nonFallbackTexts (questionRun cs st).1).Nodup) :=
  ⟨fun pn c rs st q st' h =>
      ⟨(generate_question_nonfallback pn c rs st q st' h).2.1,
       (generate_question_nonfallback pn c rs st q st' h).2.2⟩,
   fun cs st => (questionRun_nonFallback cs st).2⟩

theorem c3_unique_questions_witness :
    (¬ "这个贵吗？" ∈ GenState.init.usedQuestions ∧
      "这个贵吗？" ∈ (GenState.mk
        ["价格和优惠：关注商品的价格、折扣、优惠活动、性价比等"]
        ["这个贵吗？"]).usedQuestions) ∧
    (nonFallbackTexts
      (questionRun [⟨"手机", 0, [.ok "这个贵吗？"]⟩] GenState.init).1).Nodup :=
  ⟨c3_unique_questions.1 "手机" 0 [.ok "这个贵吗？"] GenState.init "这个贵吗？"
      (GenState.mk
        ["价格和优惠：关注商品的价格、折扣、优惠活动、性价比等"]
        ["这个贵吗？"]) (by decide),
   c3_unique_questions.2 [⟨"手机", 0, [.ok "这个贵吗？"]⟩] GenState.init⟩

/-- C10: when question generation falls back, the fallback text is inserted
into the used-questions registry before being returned; the registry only
grows across a call; and an attempt whose (stripped) text is already in the
registry is rejected by the novelty check, so any later model-generated
question equal to a previously issued fallback is treated as a duplicate. -/
theorem c10_fallback_registered :
    (∀ (pn : String) (c : Nat) (rs : List InvokeResult) (st : GenState)
        (q : String) (st' : GenState),
        generate_question pn c rs st = ((q, true), st') → q ∈ st'.usedQuestions) ∧
    (∀ (pn : String) (c : Nat) (rs : List InvokeResult) (st : GenState)
        (r : String × Bool) (st' : GenState),
        generate_question pn c rs st = (r, st') →
        st.usedQuestions ⊆ st'.usedQuestions) ∧
    (∀ (st : GenState) (content : String) (rest : List InvokeResult),
        pyStrip content ∈ st.usedQuestions →
        questionAttempts (.ok content :: rest) st = questionAttempts rest st) :=
  ⟨fun pn c rs st q st' h => (generate_question_fallback pn c rs st q st' h).2,
   fun pn c rs st r st' h => generate_question_mono pn c rs st r st' h,
   fun st content rest h => questionAttempts_duplicate st content rest h⟩

theorem c10_fallback_registered_witness :
    "这款手机的价格和优惠怎么样？" ∈ (GenState.mk
        ["价格和优惠：关注商品的价格、折扣、优惠活动、性价比等"]
        ["这款手机的价格和优惠怎么样？"]).usedQuestions ∧
    GenState.init.usedQuestions ⊆ (GenState.mk
        ["价格和优惠：关注商品的价格、折扣、优惠活动、性价比等"]
        ["这款手机的价格和优惠怎么样？"]).usedQuestions ∧
    questionAttempts [.ok "这款手机的价格和优惠怎么样？"]
        (GenState.mk [] ["这款手机的价格和优惠怎么样？"]) =
      questionAttempts [] (GenState.mk [] ["这款手机的价格和优惠怎么样？"]) :=
  ⟨c10_fallback_registered.1 "手机" 0 [.exn, .exn, .exn] GenState.init
      "这款手机的价格和优惠怎么样？"
      (GenState.mk
        ["价格和优惠：关注商品的价格、折扣、优惠活动、性价比等"]
        ["这款手机的价格和优惠怎么样？"]) (by decide),
   c10_fallback_registered.2.1 "手机" 0 [.exn, .exn, .exn] GenState.init
      ("这款手机的价格和优惠怎么样？", true)
      (GenState.mk
        ["价格和优惠：关注商品的价格、折扣、优惠活动、性价比等"]
        ["这款手机的价格和优惠怎么样？"]) (by decide),
   c10_fallback_registered.2.2 (GenState.mk [] ["这款手机的价格和优惠怎么样？"])
      "这款手机的价格和优惠怎么样？" [] (by decide)⟩

/-- C9: checkpoint serialization is deterministic: two successful saves of the
same accumulator value produce identical output content, namely the JSON
serialization of the accumulator, independent of anything else. -/
theorem c9_serialize_deterministic :
    ∀ (acc : List Exchange) (ok₁ ok₂ : Bool), ok₁ = true → ok₂ = true →
      save_qa_pairs acc ok₁ = save_qa_pairs acc ok₂ ∧
      save_qa_pairs acc ok₁ = .ok (serializeQAPairs acc) := by
  intro acc ok₁ ok₂ h1 h2
  subst h1
  subst h2
  exact ⟨rfl, rfl⟩

theorem c9_serialize_deterministic_witness :
    (save_qa_pairs [⟨"p1", "这个贵吗？", "亲，不贵哦"⟩] true =
        save_qa_pairs [⟨"p1", "这个贵吗？", "亲，不贵哦"⟩] true ∧
      save_qa_pairs [⟨"p1", "这个贵吗？", "亲，不贵哦"⟩] true =
        .ok (serializeQAPairs [⟨"p1", "这个贵吗？", "亲，不贵哦"⟩])) ∧
    serializeQAPairs [⟨"p1", "这个贵吗？", "亲，不贵哦"⟩] =
      "[\n  \x7b\n    \"id\": \"p1\",\n    \"question\": \"这个贵吗？\",\n    \"answer\": \"亲，不贵哦\"\n  \x7d\n]" :=
  ⟨c9_serialize_deterministic [⟨"p1", "这个贵吗？", "亲，不贵哦"⟩] true true rfl rfl,
   by decide⟩

/-- C1 counterexample: the id stored in an exchange record is
`product.get('id', product_id)`, not the requested id: for a catalog item
carrying both a `商品ID` field (which becomes the dict key) and a different
`id` field, a run requesting the (present) key id "A" produces its records
under id "B" — zero records per requested item id instead of N. -/
theorem c1_counterexample :
    (match main_async [⟨[("商品ID", "A"), ("id", "B"), ("name", "手机")]⟩] (some ["A"]) 1
        ⟨fun _ _ => ⟨0, [.ok "这个贵吗？"], [.ok "亲，不贵哦"]⟩, fun _ => true, fun _ => "u"⟩ with
     | .ok s => ((s.acc.filter (fun e => e.id = "A")).length,
                 (s.acc.filter (fun e => e.id = "B")).length)
     | .error _ => (99, 99)) = (0, 1) := by decide

/-- C1 (amended): for a run over a catalog in which every requested id is
present and maps to an item whose effective id (its 'id' attribute, defaulted
to the requested id) equals the requested id, the run succeeds and the output
accumulator is exactly the concatenation, in request order (catalog encounter
order for the default id list), of one block of N records per requested id,
each record carrying that id; with distinct requested ids this is exactly N
records per requested item id and N times the number of ids in total. -/
theorem c1_grouped_counts (catalog : List Product) (idsReq : List String) (N : Nat)
    (oracle : RunOracle)
    (hsave : ∀ n, oracle.saveOk n = true)
    (hpresent : ∀ pid ∈ idsReq,
        (List.lookup pid (load_products oracle.uuids catalog)).map
          (fun p => (p.get "id").getD pid) = some pid)
    (hnodup : idsReq.Nodup) :
    ∃ s', main_async catalog (some idsReq) N oracle = .ok s' ∧
      s'.acc.map (fun e => e.id) = idsReq.flatMap (fun pid => List.replicate N pid) ∧
      s'.acc.length = N * idsReq.length ∧
      ∀ pid ∈ idsReq, (s'.acc.filter (fun e => e.id = pid)).length = N := by
  have hid : ∀ pid ∈ idsReq, ∀ p,
      List.lookup pid (load_products oracle.uuids catalog) = some p →
      (p.get "id").getD pid = pid := by
    intro pid hm p hp
    have hx := hpresent pid hm
    rw [hp] at hx
    simpa using hx
  obtain ⟨s', h1, h2, h3⟩ := mainLoop_ok_spec (load_products oracle.uuids catalog) N oracle
    hsave idsReq ⟨0, [], none, [], GenState.init⟩ hid
  have hfil : idsReq.filter
      (fun pid => (List.lookup pid (load_products oracle.uuids catalog)).isSome) = idsReq := by
    rw [List.filter_eq_self]
    intro pid hm
    have hx := hpresent pid hm
    cases hlk : List.lookup pid (load_products oracle.uuids catalog) with
    | none => rw [hlk] at hx; simp at hx
    | some p => simp
  rw [hfil] at h2
  simp only [List.map_nil, List.nil_append] at h2
  have hmain : main_async catalog (some idsReq) N oracle = .ok s' := by
    simp only [main_async, Option.getD_some]
    exact h1
  refine ⟨s', hmain, h2, ?_, ?_⟩
  · rw [← flatMap_replicate_length N idsReq, ← h2, List.length_map]
  · intro pid hm
    rw [filter_id_length, h2]
    exact flatMap_replicate_count N pid idsReq hnodup hm

theorem c1_grouped_counts_witness :
    (∃ s', main_async
        [⟨[("id", "p1"), ("name", "甲")]⟩, ⟨[("id", "p2"), ("name", "乙")]⟩,
         ⟨[("id", "p3"), ("name", "丙")]⟩]
        (some ["p1", "p2", "p3"]) 2
        ⟨fun i j => ⟨i + j, [.exn, .exn, .exn], [.exn]⟩, fun _ => true, fun _ => "u"⟩ =
          .ok s' ∧
      s'.acc.map (fun e => e.id) =
        ["p1", "p2", "p3"].flatMap (fun pid => List.replicate 2 pid) ∧
      s'.acc.length = 2 * (["p1", "p2", "p3"] : List String).length ∧
      ∀ pid ∈ ["p1", "p2", "p3"],
        (s'.acc.filter (fun e => e.id = pid)).length = 2) :=
  c1_grouped_counts
    [⟨[("id", "p1"), ("name", "甲")]⟩, ⟨[("id", "p2"), ("name", "乙")]⟩,
     ⟨[("id", "p3"), ("name", "丙")]⟩]
    ["p1", "p2", "p3"] 2
    ⟨fun i j => ⟨i + j, [.exn, .exn, .exn], [.exn]⟩, fun _ => true, fun _ => "u"⟩
    (fun n => rfl) (by decide) (by decide)

/-- C4: after every completed item, the checkpoint writes the serialization of
the entire current accumulator (prior content overwritten, not a delta): the
per-item step extends the accumulator and writes exactly the serialization of
the extended whole; the item loop decomposes sequentially over any split of
the id list, so every item boundary is the final state of a prefix run; and
the invariant "the persisted output is exactly the serialization of the
accumulator (or nothing was written yet)" is preserved by any run segment. -/
theorem c4_checkpoint_full_rewrite :
    (∀ (pid : String) (product : Product) (N : Nat) (acc : List Exchange)
        (oracles : Nat → QAOracle) (st : GenState),
        process_product pid product N acc oracles true st =
          .ok (acc ++ (generate_qa_pair ((product.get "id").getD pid) product N oracles st).1,
               serializeQAPairs
                 (acc ++ (generate_qa_pair ((product.get "id").getD pid) product N oracles st).1),
               (generate_qa_pair ((product.get "id").getD pid) product N oracles st).2)) ∧
    (∀ (products : List (String × Product)) (N : Nat) (oracle : RunOracle)
        (l₁ l₂ : List String) (s : LoopState),
        mainLoop products N oracle (l₁ ++ l₂) s =
          (mainLoop products N oracle l₁ s).bind (mainLoop products N oracle l₂)) ∧
    (∀ (products : List (String × Product)) (N : Nat) (oracle : RunOracle)
        (ids : List String) (s s' : LoopState),
        mainLoop products N oracle ids s = .ok s' →
        (s.file = none ∨ s.file = some (serializeQAPairs s.acc)) →
        (s'.file = none ∨ s'.file = some (serializeQAPairs s'.acc))) :=
  ⟨fun pid product N acc oracles st => process_product_ok pid product N acc oracles st,
   fun products N oracle l₁ l₂ s => mainLoop_append products N oracle l₁ l₂ s,
   fun products N oracle ids s s' h hinv =>
     mainLoop_file_inv products N oracle ids s s' h hinv⟩

theorem c4_checkpoint_full_rewrite_witness :
    process_product "p1" ⟨[("id", "p1")]⟩ 1 [] (fun _ => ⟨0, [], []⟩) true GenState.init =
      .ok ([] ++ (generate_qa_pair (((⟨[("id", "p1")]⟩ : Product).get "id").getD "p1")
             ⟨[("id", "p1")]⟩ 1 (fun _ => ⟨0, [], []⟩) GenState.init).1,
           serializeQAPairs
             ([] ++ (generate_qa_pair (((⟨[("id", "p1")]⟩ : Product).get "id").getD "p1")
               ⟨[("id", "p1")]⟩ 1 (fun _ => ⟨0, [], []⟩) GenState.init).1),
           (generate_qa_pair (((⟨[("id", "p1")]⟩ : Product).get "id").getD "p1")
             ⟨[("id", "p1")]⟩ 1 (fun _ => ⟨0, [], []⟩) GenState.init).2) ∧
    mainLoop [("p1", ⟨[("id", "p1")]⟩)] 0
        ⟨fun _ _ => ⟨0, [], []⟩, fun _ => true, fun _ => "u"⟩ (["p1"] ++ ["p2"])
        ⟨0, [], none, [], GenState.init⟩ =
      (mainLoop [("p1", ⟨[("id", "p1")]⟩)] 0
          ⟨fun _ _ => ⟨0, [], []⟩, fun _ => true, fun _ => "u"⟩ ["p1"]
          ⟨0, [], none, [], GenState.init⟩).bind
        (mainLoop [("p1", ⟨[("id", "p1")]⟩)] 0
          ⟨fun _ _ => ⟨0, [], []⟩, fun _ => true, fun _ => "u"⟩ ["p2"]) ∧
    ((⟨1, [], some "[]", [], GenState.init⟩ : LoopState).file = none ∨
      (⟨1, [], some "[]", [], GenState.init⟩ : LoopState).file =
        some (serializeQAPairs (⟨1, [], some "[]", [], GenState.init⟩ : LoopState).acc)) :=
  ⟨c4_checkpoint_full_rewrite.1 "p1" ⟨[("id", "p1")]⟩ 1 [] (fun _ => ⟨0, [], []⟩)
      GenState.init,
   c4_checkpoint_full_rewrite.2.1 [("p1", ⟨[("id", "p1")]⟩)] 0
      ⟨fun _ _ => ⟨0, [], []⟩, fun _ => true, fun _ => "u"⟩ ["p1"] ["p2"]
      ⟨0, [], none, [], GenState.init⟩,
   c4_checkpoint_full_rewrite.2.2 [("p1", ⟨[("id", "p1")]⟩)] 0
      ⟨fun _ _ => ⟨0, [], []⟩, fun _ => true, fun _ => "u"⟩ ["p1"]
      ⟨0, [], none, [], GenState.init⟩ ⟨1, [], some "[]", [], GenState.init⟩
      rfl (Or.inl rfl)⟩

/-- C6: a requested id absent from the loaded catalog is logged as a warning
and skipped without failing, and the run continues: the loop step for an
absent id only appends the warning and advances; with successful saves the
run completes with exactly N records per present requested id — N times the
count of valid ids — and every absent requested id in the warning list. -/
theorem c6_missing_id_skipped :
    (∀ (products : List (String × Product)) (N : Nat) (oracle : RunOracle)
        (pid : String) (rest : List String) (s : LoopState),
        List.lookup pid products = none →
        mainLoop products N oracle (pid :: rest) s =
          mainLoop products N oracle rest
            ⟨s.index + 1, s.acc, s.file, s.warnings ++ [pid], s.gst⟩) ∧
    (∀ (products : List (String × Product)) (N : Nat) (oracle : RunOracle)
        (ids : List String) (s : LoopState),
        (∀ n, oracle.saveOk n = true) →
        ∃ s', mainLoop products N oracle ids s = .ok s' ∧
          s'.acc.length = s.acc.length +
            N * (ids.filter (fun pid => (List.lookup pid products).isSome)).length ∧
          ∀ pid ∈ ids, List.lookup pid products = none → pid ∈ s'.warnings) := by
  constructor
  · intro products N oracle pid rest s hlk
    simp [mainLoop, hlk]
  · intro products N oracle ids s hsave
    obtain ⟨s', h1, h2, h3⟩ := mainLoop_len_spec products N oracle hsave ids s
    refine ⟨s', h1, h2, ?_⟩
    intro pid hm hlk
    rw [h3]
    refine List.mem_append_right _ ?_
    rw [List.mem_filter]
    exact ⟨hm, by simp [hlk]⟩

theorem c6_missing_id_skipped_witness :
    mainLoop [("p1", ⟨[("id", "p1")]⟩)] 1
        ⟨fun _ _ => ⟨0, [.exn, .exn, .exn], [.exn]⟩, fun _ => true, fun _ => "u"⟩
        (["nope", "p1"] : List String).tail
        ⟨1, [], none, ["nope"], GenState.init⟩ =
      mainLoop [("p1", ⟨[("id", "p1")]⟩)] 1
        ⟨fun _ _ => ⟨0, [.exn, .exn, .exn], [.exn]⟩, fun _ => true, fun _ => "u"⟩
        (["nope", "p1"] : List String)
        ⟨0, [], none, [], GenState.init⟩ ∧
    (∃ s', mainLoop [("p1", ⟨[("id", "p1")]⟩)] 1
        ⟨fun _ _ => ⟨0, [.exn, .exn, .exn], [.exn]⟩, fun _ => true, fun _ => "u"⟩
        ["nope", "p1"] ⟨0, [], none, [], GenState.init⟩ = .ok s' ∧
      s'.acc.length = (⟨0, [], none, [], GenState.init⟩ : LoopState).acc.length +
        1 * ((["nope", "p1"].filter (fun pid =>
          (List.lookup pid [("p1", (⟨[("id", "p1")]⟩ : Product))]).isSome)).length) ∧
      ∀ pid ∈ (["nope", "p1"] : List String),
        List.lookup pid [("p1", (⟨[("id", "p1")]⟩ : Product))] = none →
        pid ∈ s'.warnings) :=
  ⟨(c6_missing_id_skipped.1 [("p1", ⟨[("id", "p1")]⟩)] 1
      ⟨fun _ _ => ⟨0, [.exn, .exn, .exn], [.exn]⟩, fun _ => true, fun _ => "u"⟩
      "nope" ["p1"] ⟨0, [], none, [], GenState.init⟩ (by decide)).symm,
   c6_missing_id_skipped.2 [("p1", ⟨[("id", "p1")]⟩)] 1
      ⟨fun _ _ => ⟨0, [.exn, .exn, .exn], [.exn]⟩, fun _ => true, fun _ => "u"⟩
      ["nope", "p1"] ⟨0, [], none, [], GenState.init⟩ (fun n => rfl)⟩

/-- C2 counterexample: answer generation performs no semantic validation: an
empty response is returned as-is on the first attempt — no retry (the trace
holds exactly one invoke) and no fallback substitution — and an invalid
question attempt retries immediately with no sleep between attempts. -/
theorem c2_counterexample :
    generate_answer [.ok "", .ok "亲，有货的呢"] = "" ∧
    ¬ ("" = fallbackAnswer) ∧
    generate_answer_trace [.ok "", .ok "亲，有货的呢"] = [.acquire, .invoke, .release] ∧
    questionAttemptsTrace [.ok "嗯", .ok "这个贵吗？"] GenState.init = [.invoke, .invoke] :=
  ⟨by decide, by decide, by decide, by decide⟩

/-- C2 (amended): each generation call makes at most 3 attempts (only the
first three oracle results are ever consulted); for questions, after 3
attempts that raised or were semantically invalid (empty, too short, or a
duplicate) the call returns the deterministic templated fallback built from
the item name and the focus category; for answers, after 3 attempts that all
raised it returns the fixed apology phrase, but a non-raising attempt is
returned without semantic validation; per-item processing always succeeds
when the checkpoint write succeeds, whatever the generation results, so no
item fails because a call exhausted its retries; the fixed 1-second delay
occurs after each transiently failed attempt (and, per the counterexample,
only after those). -/
theorem c2_retry_fallback :
    (∀ (pn : String) (c : Nat) (rs : List InvokeResult) (st : GenState),
        generate_question pn c rs st = generate_question pn c (rs.take 3) st) ∧
    (∀ rs : List InvokeResult, generate_answer rs = generate_answer (rs.take 3)) ∧
    (∀ (pn : String) (c : Nat) (rs : List InvokeResult) (st : GenState),
        (∀ r ∈ rs.take 3, r = .exn ∨
            ∃ ct, r = .ok ct ∧ validNewQuestion st (pyStrip ct) = false) →
        (generate_question pn c rs st).1 =
          (defaultQuestion pn (pickFocus c st).1, true)) ∧
    (∀ rs : List InvokeResult, (∀ r ∈ rs.take 3, r = .exn) →
        generate_answer rs = fallbackAnswer) ∧
    (∀ (pid : String) (product : Product) (N : Nat) (acc : List Exchange)
        (oracles : Nat → QAOracle) (st : GenState),
        ∃ v, process_product pid product N acc oracles true st = .ok v) ∧
    (∀ st : GenState, questionAttemptsTrace (List.replicate 3 .exn) st =
        [.invoke, .sleep, .invoke, .sleep, .invoke, .sleep]) ∧
    answerAttemptsTrace (List.replicate 3 .exn) =
      [.invoke, .sleep, .invoke, .sleep, .invoke, .sleep] :=
  ⟨fun pn c rs st => by simp [generate_question, List.take_take],
   fun rs => by simp [generate_answer, List.take_take],
   fun pn c rs st hall => generate_question_all_fail pn c rs st hall,
   fun rs h => generate_answer_all_exn rs h,
   fun pid product N acc oracles st => ⟨_, process_product_ok pid product N acc oracles st⟩,
   fun st => rfl,
   rfl⟩

theorem c2_retry_fallback_witness :
    generate_question "手机" 0 [.exn, .exn, .exn, .ok "备选"] GenState.init =
      generate_question "手机" 0 ([.exn, .exn, .exn, .ok "备选"].take 3) GenState.init ∧
    (generate_question "手机" 0 [.exn, .ok "嗯", .exn] GenState.init).1 =
      (defaultQuestion "手机" (pickFocus 0 GenState.init).1, true) ∧
    generate_answer [.exn, .exn, .exn] = fallbackAnswer ∧
    (∃ v, process_product "p1" ⟨[("id", "p1")]⟩ 1 [] (fun _ => ⟨0, [], []⟩) true
        GenState.init = .ok v) ∧
    questionAttemptsTrace (List.replicate 3 .exn) GenState.init =
      [.invoke, .sleep, .invoke, .sleep, .invoke, .sleep] :=
  ⟨c2_retry_fallback.1 "手机" 0 [.exn, .exn, .exn, .ok "备选"] GenState.init,
   c2_retry_fallback.2.2.1 "手机" 0 [.exn, .ok "嗯", .exn] GenState.init (by
      intro r hr
      simp only [List.take, List.mem_cons, List.not_mem_nil, or_false] at hr
      rcases hr with rfl | rfl | rfl
      · exact Or.inl rfl
      · exact Or.inr ⟨"嗯", rfl, by decide⟩
      · exact Or.inl rfl),
   c2_retry_fallback.2.2.2.1 [.exn, .exn, .exn] (by decide),
   c2_retry_fallback.2.2.2.2.1 "p1" ⟨[("id", "p1")]⟩ 1 [] (fun _ => ⟨0, [], []⟩)
     GenState.init,
   c2_retry_fallback.2.2.2.2.2.1 GenState.init⟩

/-- C8: the semaphore admits at most K tasks system-wide in every reachable
configuration; each generation phase (one `generate_question` call, one
`generate_answer` call) is bracketed by exactly one acquire/release pair with
no other gate operation inside; and one exchange's trace is the question
phase's gated section followed by the answer phase's separately gated
section, so the two phases are gated independently. -/
theorem c8_gate_bound :
    (∀ (K n : Nat) (l : List TaskPhase), gateReach K n l → runningCount l ≤ K) ∧
    (∀ (c : Nat) (rs : List InvokeResult) (st : GenState),
        ∃ mid, generate_question_trace c rs st = .acquire :: mid ++ [.release] ∧
          ¬ .acquire ∈ mid ∧ ¬ .release ∈ mid ∧
          (generate_question_trace c rs st).count .acquire = 1 ∧
          (generate_question_trace c rs st).count .release = 1) ∧
    (∀ rs : List InvokeResult,
        ∃ mid, generate_answer_trace rs = .acquire :: mid ++ [.release] ∧
          ¬ .acquire ∈ mid ∧ ¬ .release ∈ mid ∧
          (generate_answer_trace rs).count .acquire = 1 ∧
          (generate_answer_trace rs).count .release = 1) ∧
    (∀ (o : QAOracle) (st : GenState),
        generate_single_qa_pair_trace o st =
          generate_question_trace o.focusChoice o.qResps st ++
            generate_answer_trace o.aResps) := by
  refine ⟨fun K n l h => gate_bound K n l h, ?_, ?_, fun o st => rfl⟩
  · intro c rs st
    have hacq : ¬ Event.acquire ∈ questionAttemptsTrace (rs.take 3) (pickFocus c st).2 := by
      intro h
      rcases questionAttemptsTrace_events _ _ _ h with h | h <;> simp at h
    have hrel : ¬ Event.release ∈ questionAttemptsTrace (rs.take 3) (pickFocus c st).2 := by
      intro h
      rcases questionAttemptsTrace_events _ _ _ h with h | h <;> simp at h
    obtain ⟨h1, h2⟩ := bracket_counts _ hacq hrel
    exact ⟨questionAttemptsTrace (rs.take 3) (pickFocus c st).2, rfl, hacq, hrel, h1, h2⟩
  · intro rs
    have hacq : ¬ Event.acquire ∈ answerAttemptsTrace (rs.take 3) := by
      intro h
      rcases answerAttemptsTrace_events _ _ h with h | h <;> simp at h
    have hrel : ¬ Event.release ∈ answerAttemptsTrace (rs.take 3) := by
      intro h
      rcases answerAttemptsTrace_events _ _ h with h | h <;> simp at h
    obtain ⟨h1, h2⟩ := bracket_counts _ hacq hrel
    exact ⟨answerAttemptsTrace (rs.take 3), rfl, hacq, hrel, h1, h2⟩

theorem c8_gate_bound_witness :
    runningCount (List.replicate 2 .waiting) ≤ 3 ∧
    (∃ mid, generate_question_trace 0 [.exn] GenState.init = .acquire :: mid ++ [.release] ∧
      ¬ .acquire ∈ mid ∧ ¬ .release ∈ mid ∧
      (generate_question_trace 0 [.exn] GenState.init).count .acquire = 1 ∧
      (generate_question_trace 0 [.exn] GenState.init).count .release = 1) ∧
    (∃ mid, generate_answer_trace [.ok "亲，在的"] = .acquire :: mid ++ [.release] ∧
      ¬ .acquire ∈ mid ∧ ¬ .release ∈ mid ∧
      (generate_answer_trace [.ok "亲，在的"]).count .acquire = 1 ∧
      (generate_answer_trace [.ok "亲，在的"]).count .release = 1) ∧
    generate_single_qa_pair_trace ⟨0, [], []⟩ GenState.init =
      generate_question_trace 0 [] GenState.init ++ generate_answer_trace [] :=
  ⟨c8_gate_bound.1 3 2 (List.replicate 2 .waiting) Relation.ReflTransGen.refl,
   c8_gate_bound.2.1 0 [.exn] GenState.init,
   c8_gate_bound.2.2.1 [.ok "亲，在的"],
   c8_gate_bound.2.2.2 ⟨0, [], []⟩ GenState.init⟩

/-- C7 counterexample: the focus pick is not atomic: its snapshot, clear and
insert are separate exclusive sections with suspension points between them.
Interleaving two picks (both with choice index 0) so that both snapshot the
empty used set before either inserts makes both return the same focus tag,
and the second pick completes while its returned tag is already in the shared
used set; running the two picks serialized (as a single exclusive section per
pick would force) returns two distinct tags. -/
theorem c7_counterexample :
    runSched [true, false, true] (.start 0, .start 0, []) =
      (.done (FOCUS_POINTS.getD 0 ""), .haveSnapshot 0 [], [FOCUS_POINTS.getD 0 ""]) ∧
    runSched [true, false, true, false] (.start 0, .start 0, []) =
      (.done (FOCUS_POINTS.getD 0 ""), .done (FOCUS_POINTS.getD 0 ""),
        [FOCUS_POINTS.getD 0 ""]) ∧
    runSched [true, true, false, false] (.start 0, .start 0, []) =
      (.done (FOCUS_POINTS.getD 0 ""), .done (FOCUS_POINTS.getD 1 ""),
        [FOCUS_POINTS.getD 1 "", FOCUS_POINTS.getD 0 ""]) ∧
    ¬ (FOCUS_POINTS.getD 0 "" = FOCUS_POINTS.getD 1 "") :=
  ⟨by decide, by decide, by decide, by decide⟩

/-- C7 (amended): a focus pick returns a tag absent from the snapshot of the
used-focus set taken at the start of the pick — so, when the pick runs without
interleaving, a tag absent from the used set unless every tag was already
used — and inserts it; when every tag in the full tag set is used, it clears
the used set and serves any requested tag from the full set again, so no tag
is permanently starved; the snapshot, clear, and insert are each atomic, but
the pick as a whole is not a single exclusive section (an uninterrupted
three-step schedule of the step model implements exactly the sequential
pick). -/
theorem c7_pick_focus :
    (∀ (c : Nat) (st : GenState),
        (pickFocus c st).1 ∈ FOCUS_POINTS ∧
        (¬ (pickFocus c st).1 ∈ st.usedFocuses ∨ ∀ f ∈ FOCUS_POINTS, f ∈ st.usedFocuses) ∧
        (pickFocus c st).1 ∈ (pickFocus c st).2.usedFocuses) ∧
    (∀ st : GenState, (∀ f ∈ FOCUS_POINTS, f ∈ st.usedFocuses) →
        ∀ target ∈ FOCUS_POINTS, ∃ c, (pickFocus c st).1 = target) ∧
    (∀ (c : Nat) (s : List String) (t2 : PickState) (qs : List String),
        runSched [true, true, true] (.start c, t2, s) =
          (.done (pickFocus c ⟨s, qs⟩).1, t2, (pickFocus c ⟨s, qs⟩).2.usedFocuses)) :=
  ⟨fun c st => pickFocus_spec c st,
   fun st hall => pickFocus_exhausted st hall,
   fun c s t2 qs => runSched_seq_pick c s t2 qs⟩

theorem c7_pick_focus_witness :
    ((pickFocus 0 GenState.init).1 ∈ FOCUS_POINTS ∧
      (¬ (pickFocus 0 GenState.init).1 ∈ GenState.init.usedFocuses ∨
        ∀ f ∈ FOCUS_POINTS, f ∈ GenState.init.usedFocuses) ∧
      (pickFocus 0 GenState.init).1 ∈ (pickFocus 0 GenState.init).2.usedFocuses) ∧
    (∃ c, (pickFocus c (GenState.mk FOCUS_POINTS [])).1 = FOCUS_POINTS.getD 3 "") ∧
    runSched [true, true, true] (.start 2, .start 0, []) =
      (.done (pickFocus 2 (GenState.mk [] [])).1, .start 0,
        (pickFocus 2 (GenState.mk [] [])).2.usedFocuses) :=
  ⟨c7_pick_focus.1 0 GenState.init,
   c7_pick_focus.2.1 (GenState.mk FOCUS_POINTS []) (fun f hf => hf)
     (FOCUS_POINTS.getD 3 "") (by decide),
   c7_pick_focus.2.2 2 [] (.start 0) []⟩

/-- C5: a checkpoint-write failure is fatal: when the save of the current item
fails, per-item processing returns the error uncaught, the whole run evaluates
to that error, and the remaining requested ids are never consulted (the result
is the same for every possible continuation of the id list). -/
theorem c5_save_failure_fatal :
    ∀ (products : List (String × Product)) (N : Nat) (oracle : RunOracle)
      (pid : String) (product : Product) (s : LoopState),
      List.lookup pid products = some product →
      oracle.saveOk s.index = false →
      ∀ rest rest' : List String,
        mainLoop products N oracle (pid :: rest) s = .error () ∧
        mainLoop products N oracle (pid :: rest) s =
          mainLoop products N oracle (pid :: rest') s := by
  intro products N oracle pid product s hlk hsv rest rest'
  have herr : ∀ l : List String, mainLoop products N oracle (pid :: l) s = .error () := by
    intro l
    simp [mainLoop, hlk, process_product, save_qa_pairs, hsv]
  exact ⟨herr rest, (herr rest).trans (herr rest').symm⟩

theorem c5_save_failure_fatal_witness :
    mainLoop [("p1", ⟨[("id", "p1")]⟩)] 1
        ⟨fun _ _ => ⟨0, [], []⟩, fun _ => false, fun _ => "u"⟩ ["p1", "p2"]
        ⟨0, [], none, [], GenState.init⟩ = .error () ∧
    mainLoop [("p1", ⟨[("id", "p1")]⟩)] 1
        ⟨fun _ _ => ⟨0, [], []⟩, fun _ => false, fun _ => "u"⟩ ["p1", "p2"]
        ⟨0, [], none, [], GenState.init⟩ =
      mainLoop [("p1", ⟨[("id", "p1")]⟩)] 1
        ⟨fun _ _ => ⟨0, [], []⟩, fun _ => false, fun _ => "u"⟩ ["p1", "p3"]
        ⟨0, [], none, [], GenState.init⟩ :=
  c5_save_failure_fatal [("p1", ⟨[("id", "p1")]⟩)] 1
    ⟨fun _ _ => ⟨0, [], []⟩, fun _ => false, fun _ => "u"⟩ "p1" ⟨[("id", "p1")]⟩
    ⟨0, [], none, [], GenState.init⟩ (by decide) (by decide) ["p2"] ["p3"]

end QAGen
